import Mathlib

/-!
# Verification of the roc-toolkit FEC writer and transcoder source

This file gives a shallow embedding of two components of the repository:

* `roc_fec::Writer` (src/src/internal_modules/roc_fec/writer.h). Only the
  class declaration ships in the source tree, so the operational behaviour
  of `write`, `resize` and the repair-synthesis helpers is modelled from the
  specification (sections 3, 4.1-4.4, 7, 8 of spec.md), keeping the field
  and method names of the header.

* `roc_pipeline::TranscoderSource`
  (src/src/internal_modules/roc_pipeline/transcoder_source.cpp), embedded
  directly from the implementation file.

External collaborators (block encoder, packet/buffer factories, composers,
downstream writer) are modelled as an oracle `Env` that decides, per
invocation, whether the collaborator succeeds; the writer's interactions
with the collaborators and with the downstream writer are recorded as a
trace of `Event`s.
-/

namespace RocFec

/-- A source packet as submitted by the caller: a stream sequence number,
a stream timestamp and a payload size (the payload bytes themselves do not
influence the writer's control flow, only the size does). -/
structure PacketIn where
  sn : Nat
  ts : Nat
  payload_size : Nat
deriving Repr, DecidableEq, Inhabited

/-- A packet as observed by the downstream writer, after the FEC writer has
stamped the FEC metadata: `sbn` (block sequence number), the block-relative
index (`blockIndex`; for source packets the position in the block, for
repair packets the intra-block repair index), `sblen`/`rblen` of the block,
and whether it belongs to the repair stream. -/
structure Packet where
  sn : Nat
  ts : Nat
  payload_size : Nat
  sbn : Nat
  blockIndex : Nat
  sblen : Nat
  rblen : Nat
  isRepair : Bool
deriving Repr, DecidableEq, Inhabited

/-- One observable interaction of the writer with a collaborator:
downstream writes of source/repair packets, repair-packet allocations,
the block-encoder call, and composer calls. -/
inductive Event where
  | writeSource (p : Packet)
  | writeRepair (p : Packet)
  | allocCall (i : Nat)
  | encodeCall
  | composeSourceCall
  | composeRepairCall (i : Nat)
deriving Repr, DecidableEq

/-- Status codes returned by `write`/`resize`, mirroring the error taxonomy
of spec.md section 7: `abort` for a dead writer, `badPacket` for a source
packet failing validation, `noMem` for allocation failure, `badOperation`
for encoder/composer failure, `ioError` for a downstream-writer failure. -/
inductive Status where
  | ok
  | abort
  | badPacket
  | noMem
  | badOperation
  | ioError
deriving Repr, DecidableEq

/-- Collaborator oracle: for each collaborator invocation, whether it
succeeds.  Indexed calls (`allocOk`, `composeRepairOk`, `writeRepairOk`)
are indexed by the repair slot. -/
structure Env where
  allocOk : Nat → Bool
  encodeOk : Bool
  composeSourceOk : Bool
  composeRepairOk : Nat → Bool
  writeSourceOk : Bool
  writeRepairOk : Nat → Bool

/-- The environment in which every collaborator call succeeds. -/
def okEnv : Env :=
  { allocOk := fun _ => true
    encodeOk := true
    composeSourceOk := true
    composeRepairOk := fun _ => true
    writeSourceOk := true
    writeRepairOk := fun _ => true }

/-- Modelled from the spec: the state of `roc_fec::Writer`
(writer.h lines 111-143; the .cpp implementation is not in the source
excerpt).  Field names follow the header: current and pending block
parameters, the established payload size, position in the current block,
the first-packet and alive flags, the block and repair-stream counters,
the pending repair block, and the duration statistics.  `max_sblen` and
`max_rblen` stand for the block-size limits of the encoding scheme
(spec section 3: "bounded by the encoding scheme's maximum block size").
`cur_block_ts` records the timestamp of the current block's first packet,
which spec section 4.3 reads at block completion. -/
structure Writer where
  cur_sblen : Nat
  next_sblen : Nat
  cur_rblen : Nat
  next_rblen : Nat
  cur_payload_size : Nat
  first_packet : Bool
  alive : Bool
  cur_sbn : Nat
  cur_block_repair_sn : Nat
  cur_packet : Nat
  max_sblen : Nat
  max_rblen : Nat
  repair_block : List Packet
  prev_block_ts_valid : Bool
  prev_block_ts : Nat
  cur_block_ts : Nat
  block_max_duration : Option Nat
deriving Repr, DecidableEq

/-- Modelled from the spec: construction of a writer from a configuration
(`WriterConfig.n_source_packets`/`n_repair_packets`) plus the encoding
scheme's block-size limits.  Counters start at zero, no block is in
progress, the writer is alive and the duration statistics are undefined. -/
def mkWriter (sblen rblen max_s max_r : Nat) : Writer :=
  { cur_sblen := sblen
    next_sblen := sblen
    cur_rblen := rblen
    next_rblen := rblen
    cur_payload_size := 0
    first_packet := true
    alive := true
    cur_sbn := 0
    cur_block_repair_sn := 0
    cur_packet := 0
    max_sblen := max_s
    max_rblen := max_r
    repair_block := []
    prev_block_ts_valid := false
    prev_block_ts := 0
    cur_block_ts := 0
    block_max_duration := none }

/-- Modelled from the spec (section 4.1 `resize`): both parameters must be
positive and within the encoding scheme's supported range. -/
def sizesValid (w : Writer) (sblen rblen : Nat) : Prop :=
  0 < sblen ∧ 0 < rblen ∧ sblen ≤ w.max_sblen ∧ rblen ≤ w.max_rblen

instance (w : Writer) (sblen rblen : Nat) : Decidable (sizesValid w sblen rblen) := by
  unfold sizesValid; infer_instance

/-- Modelled from the spec: `Writer::resize` (writer.h line 83; spec
sections 4.1, 4.3, 8).  Validates both parameters against the encoder's
supported range; on failure returns `false` without mutating state.  On
success stores the parameters into `next_sblen_`/`next_rblen_` for
application at the next block boundary, and resets the block-duration
statistics ("a resize operation resets the tracked maximum"; the maximum
becomes undefined and the previous-block timestamp baseline is dropped,
to be repopulated from the next two completed blocks). -/
def resize (w : Writer) (sblen rblen : Nat) : Writer × Bool :=
  if sizesValid w sblen rblen then
    ({ w with
        next_sblen := sblen
        next_rblen := rblen
        prev_block_ts_valid := false
        block_max_duration := none }, true)
  else
    (w, false)

/-- Modelled from the spec: `Writer::begin_block_` (writer.h line 92; spec
section 4.1).  Runs at the first packet of a block: applies any pending
resize (copies `next_*` into `cur_*`), establishes the block's payload
size from the incoming packet, records the block's first-packet timestamp,
and resizes (clears) the pending repair block. -/
def begin_block_ (w : Writer) (pp : PacketIn) : Writer :=
  { w with
      cur_sblen := w.next_sblen
      cur_rblen := w.next_rblen
      cur_payload_size := pp.payload_size
      cur_block_ts := pp.ts
      repair_block := []
      first_packet := false }

/-- Modelled from the spec: `Writer::validate_source_packet_` (writer.h
line 107; spec section 4.3): the payload must be non-empty and match the
block's established payload size. -/
def validate_source_packet_ (w : Writer) (pp : PacketIn) : Bool :=
  0 < pp.payload_size && pp.payload_size == w.cur_payload_size

/-- Modelled from the spec: `Writer::fill_packet_fec_fields_` applied to
the current source packet (writer.h line 104; spec section 4.3): pure
metadata stamping of `sbn`, block-relative index (the position
`cur_packet_`), `sblen` and `rblen`. -/
def fill_packet_fec_fields_ (w : Writer) (pp : PacketIn) : Packet :=
  { sn := pp.sn
    ts := pp.ts
    payload_size := pp.payload_size
    sbn := w.cur_sbn
    blockIndex := w.cur_packet
    sblen := w.cur_sblen
    rblen := w.cur_rblen
    isRepair := false }

/-- Modelled from the spec: `Writer::make_repair_packet_` (writer.h line
100; spec section 4.2 step 3): the `n`-th repair packet of the current
block carries the next repair-stream sequence number
(`cur_block_repair_sn_ + n`), the block's `sbn`, the intra-block repair
index `n`, the block's `sblen`/`rblen`, and a payload of the block's
payload size. -/
def make_repair_packet_ (w : Writer) (n : Nat) : Packet :=
  { sn := w.cur_block_repair_sn + n
    ts := w.cur_block_ts
    payload_size := w.cur_payload_size
    sbn := w.cur_sbn
    blockIndex := n
    sblen := w.cur_sblen
    rblen := w.cur_rblen
    isRepair := true }

/-- The full pending repair block of the current block, in repair-index
order. -/
def repair_packets (w : Writer) : List Packet :=
  (List.range w.cur_rblen).map (make_repair_packet_ w)

/-- Modelled from the spec (section 4.2 step 1): allocation of the repair
slots listed in `idxs`, in order, stopping at the first factory failure. -/
def alloc_run (env : Env) : List Nat → List Event × Bool
  | [] => ([], true)
  | i :: rest =>
    if env.allocOk i then
      let r := alloc_run env rest
      (Event.allocCall i :: r.1, r.2)
    else
      ([Event.allocCall i], false)

/-- Modelled from the spec (section 4.2 step 4): composing the repair
packets with indices `idxs`, in order, stopping at the first composer
failure (fail-fast). -/
def compose_run (env : Env) : List Nat → List Event × Bool
  | [] => ([], true)
  | i :: rest =>
    if env.composeRepairOk i then
      let r := compose_run env rest
      (Event.composeRepairCall i :: r.1, r.2)
    else
      ([Event.composeRepairCall i], false)

/-- Modelled from the spec (section 4.2 step 5): writing the composed
repair packets downstream in repair-index order (`i` is the index of the
first packet of `ps`), stopping at the first downstream failure. -/
def write_repair_run (env : Env) (i : Nat) : List Packet → List Event × Bool
  | [] => ([], true)
  | p :: rest =>
    if env.writeRepairOk i then
      let r := write_repair_run env (i + 1) rest
      (Event.writeRepair p :: r.1, r.2)
    else
      ([Event.writeRepair p], false)

/-- Modelled from the spec: repair synthesis for a completed block
(`Writer::make_repair_packets_`, `encode_repair_packets_`,
`compose_repair_packets_`, `write_repair_packets_`, writer.h lines 99-103;
spec section 4.2).  Allocate all repair slots, run the block encoder,
stamp the repair packets (advancing the repair-stream counter), compose
them all, and only then write them downstream in repair-index order.  Any
failure aborts the phase with the corresponding status; the caller
(`write`) marks the writer non-alive. -/
def repair_phase (env : Env) (w : Writer) : List Event × Writer × Status :=
  let a := alloc_run env (List.range w.cur_rblen)
  if a.2 then
    if env.encodeOk then
      let pkts := repair_packets w
      let w' := { w with
                    cur_block_repair_sn := w.cur_block_repair_sn + w.cur_rblen
                    repair_block := pkts }
      let c := compose_run env (List.range w.cur_rblen)
      if c.2 then
        let wr := write_repair_run env 0 pkts
        if wr.2 then
          (a.1 ++ [Event.encodeCall] ++ c.1 ++ wr.1, w', Status.ok)
        else
          (a.1 ++ [Event.encodeCall] ++ c.1 ++ wr.1, w', Status.ioError)
      else
        (a.1 ++ [Event.encodeCall] ++ c.1, w', Status.badOperation)
    else
      (a.1 ++ [Event.encodeCall], w, Status.badOperation)
  else
    (a.1, w, Status.noMem)

/-- Modelled from the spec (section 4.3 block-duration tracking): at block
completion, if a previous block's first-packet timestamp is on record,
fold the duration between the current and the previous block's first
packets into the tracked maximum; in either case the current block's
first-packet timestamp becomes the new baseline. -/
def end_block_ (w : Writer) : Writer :=
  if w.prev_block_ts_valid then
    { w with
        block_max_duration :=
          some (max (w.block_max_duration.getD 0) (w.cur_block_ts - w.prev_block_ts))
        prev_block_ts := w.cur_block_ts
        prev_block_ts_valid := true }
  else
    { w with
        prev_block_ts := w.cur_block_ts
        prev_block_ts_valid := true }

/-- Modelled from the spec: `Writer::next_block_` (writer.h line 94; spec
section 4.1): increment `sbn`, reset the position in the block, clear the
pending repair block. -/
def next_block_ (w : Writer) : Writer :=
  { w with
      cur_sbn := w.cur_sbn + 1
      cur_packet := 0
      repair_block := [] }

/-- Modelled from the spec: `Writer::write_source_packet_` (writer.h line
98; spec sections 4.1, 4.2, 7), the body of `write` once a block is in
progress.  Validate the source packet (failure leaves `cur_packet_`
unchanged and the writer alive), compose it and pass it straight through
downstream, advance `cur_packet_`; when the block is complete, run repair
synthesis, track the block duration and reset for the next block; a
repair-phase failure makes the writer permanently non-alive and the call
reports the failure even though the source packet already reached the
downstream writer. -/
def write_source_packet_ (env : Env) (w : Writer) (pp : PacketIn) :
    List Event × Writer × Status :=
  if validate_source_packet_ w pp then
    if env.composeSourceOk then
      if env.writeSourceOk then
        if w.cur_packet + 1 = w.cur_sblen then
          if (repair_phase env { w with cur_packet := w.cur_packet + 1 }).2.2
              = Status.ok then
            ([Event.composeSourceCall,
              Event.writeSource (fill_packet_fec_fields_ w pp)]
               ++ (repair_phase env { w with cur_packet := w.cur_packet + 1 }).1,
             next_block_ (end_block_
               (repair_phase env { w with cur_packet := w.cur_packet + 1 }).2.1),
             Status.ok)
          else
            ([Event.composeSourceCall,
              Event.writeSource (fill_packet_fec_fields_ w pp)]
               ++ (repair_phase env { w with cur_packet := w.cur_packet + 1 }).1,
             { (repair_phase env { w with cur_packet := w.cur_packet + 1 }).2.1 with
                 alive := false },
             (repair_phase env { w with cur_packet := w.cur_packet + 1 }).2.2)
        else
          ([Event.composeSourceCall,
            Event.writeSource (fill_packet_fec_fields_ w pp)],
           { w with cur_packet := w.cur_packet + 1 }, Status.ok)
      else
        ([Event.composeSourceCall,
          Event.writeSource (fill_packet_fec_fields_ w pp)],
         w, Status.ioError)
    else
      ([Event.composeSourceCall], w, Status.badOperation)
  else
    ([], w, Status.badPacket)

/-- Modelled from the spec: the top half of `Writer::write` (writer.h line
89; spec sections 4.1 and 7): a dead writer rejects immediately without
touching any collaborator; otherwise a new block is begun at a block
boundary and the packet is handed to `write_source_packet_`. -/
def write (env : Env) (w : Writer) (pp : PacketIn) : List Event × Writer × Status :=
  if w.alive then
    if w.cur_packet = 0 then write_source_packet_ env (begin_block_ w pp) pp
    else write_source_packet_ env w pp
  else
    ([], w, Status.abort)

/-- Sequential composition of `write` calls, concatenating the event
traces and collecting the per-call statuses. -/
def writeMany (env : Env) (w : Writer) : List PacketIn → List Event × Writer × List Status
  | [] => ([], w, [])
  | pp :: rest =>
    let r := write env w pp
    let r2 := writeMany env r.2.1 rest
    (r.1 ++ r2.1, r2.2.1, r.2.2 :: r2.2.2)

/-- `Writer::max_block_duration` accessor (writer.h line 80): `none` when
no duration has been observed since the last baseline reset. -/
def max_block_duration (w : Writer) : Option Nat :=
  w.block_max_duration

/-- `Writer::is_alive` accessor (writer.h line 77). -/
def is_alive (w : Writer) : Bool :=
  w.alive

/-! ### Derived trace descriptions

These definitions describe the traces and states the theorems predict; they
are stated directly in terms of the stamping functions above. -/

/-- The downstream-visible events of a trace: the writes of source and
repair packets, in order. -/
def isDownstreamWrite : Event → Bool
  | Event.writeSource _ => true
  | Event.writeRepair _ => true
  | _ => false

/-- The expected trace of the source phase of one block: for each packet,
one source-composer call followed by the downstream write of the packet
stamped with the current position, which then advances. -/
def srcTrace (w : Writer) : List PacketIn → List Event
  | [] => []
  | pp :: rest =>
    Event.composeSourceCall :: Event.writeSource (fill_packet_fec_fields_ w pp)
      :: srcTrace { w with cur_packet := w.cur_packet + 1 } rest

/-- The expected trace of a fully successful repair phase: all allocation
calls, the encoder call, all repair-composer calls, then the downstream
writes of the stamped repair packets in repair-index order. -/
def repairTraceOk (w : Writer) : List Event :=
  (List.range w.cur_rblen).map Event.allocCall
    ++ [Event.encodeCall]
    ++ (List.range w.cur_rblen).map Event.composeRepairCall
    ++ (repair_packets w).map Event.writeRepair

/-- The expected writer state after one successful block, starting from
the state `w` holding right after `begin_block_`: the repair-stream
counter advanced by `cur_rblen`, the duration statistics folded, `sbn`
advanced and the position reset. -/
def blockFinal (w : Writer) : Writer :=
  next_block_ (end_block_
    { w with
        cur_block_repair_sn := w.cur_block_repair_sn + w.cur_rblen
        repair_block := repair_packets w })

/-- The repair-stream sequence numbers of the repair packets written
downstream in a trace, in order of transmission. -/
def repairSns (evs : List Event) : List Nat :=
  evs.filterMap fun e =>
    match e with
    | Event.writeRepair p => some p.sn
    | _ => none

/-- The timestamp of the first packet of a block. -/
def firstTs (b : List PacketIn) : Nat :=
  (b.headD default).ts

/-- A block's worth of input for a writer expecting `sblen` packets per
block: the right number of packets, all with one positive payload size. -/
def goodBlock (sblen : Nat) (b : List PacketIn) : Prop :=
  b.length = sblen ∧ ∃ p, 0 < p ∧ ∀ q ∈ b, q.payload_size = p

/-- One step of the block-duration statistics (spec section 4.3), applied
at each block completion to the triple (baseline valid, baseline
timestamp, tracked maximum) with the completing block's first-packet
timestamp. -/
def durStep : Bool × Nat × Option Nat → Nat → Bool × Nat × Option Nat
  | (valid, prev, cur), t =>
    if valid then (true, t, some (max (cur.getD 0) (t - prev)))
    else (true, t, cur)

/-- The duration statistics after a sequence of block completions. -/
def durRun (s : Bool × Nat × Option Nat) (ts : List Nat) : Bool × Nat × Option Nat :=
  ts.foldl durStep s

/-- The list of differences between consecutive entries of a timestamp
list (truncated subtraction on `Nat`). -/
def consecDiffs : List Nat → List Nat
  | a :: b :: rest => (b - a) :: consecDiffs (b :: rest)
  | _ => []

/-- The maximum over completed blocks of the difference between the
first-packet timestamps of consecutive blocks; undefined while fewer than
two blocks have completed. -/
def maxConsecDiff (l : List Nat) : Option Nat :=
  match consecDiffs l with
  | [] => none
  | ds => some (ds.foldl max 0)

/-- The downstream writes of the source phase of one block: each packet
stamped with the advancing block position. -/
def srcWrites (w : Writer) : List PacketIn → List Event
  | [] => []
  | pp :: rest =>
    Event.writeSource (fill_packet_fec_fields_ w pp)
      :: srcWrites { w with cur_packet := w.cur_packet + 1 } rest

/-- Running a sequence of blocks through the writer. -/
def runBlocks (env : Env) (w : Writer) (blocks : List (List PacketIn)) :
    List Event × Writer × List Status :=
  writeMany env w blocks.flatten

/-- Failure of a collaborator during repair synthesis: some allocation
fails, the encoder fails, or some repair-composer call fails (spec
sections 4.2 steps 1-4 and 7). -/
def repairPhaseFails (env : Env) (r : Nat) : Prop :=
  (∃ i < r, env.allocOk i = false) ∨ env.encodeOk = false
    ∨ (∃ i < r, env.composeRepairOk i = false)

/-- A writer state mid-block (position 2 of a 4-packet block) with a
recorded maximum block duration, used to exhibit the extra effect of
`resize` on the duration statistics. -/
def c2State : Writer :=
  { mkWriter 4 2 20 20 with
      cur_packet := 2
      cur_payload_size := 160
      prev_block_ts_valid := true
      prev_block_ts := 100
      block_max_duration := some 5 }

/-- Concrete packets used to exercise the writer on small runs. -/
def pktA : PacketIn := { sn := 0, ts := 0, payload_size := 5 }

/-- Second concrete packet, timestamp 10. -/
def pktB : PacketIn := { sn := 1, ts := 10, payload_size := 5 }

/-- Third concrete packet, timestamp 25. -/
def pktC : PacketIn := { sn := 2, ts := 25, payload_size := 5 }

/-- An environment in which every repair-packet allocation fails. -/
def allocFailEnv : Env :=
  { allocOk := fun _ => false
    encodeOk := true
    composeSourceOk := true
    composeRepairOk := fun _ => true
    writeSourceOk := true
    writeRepairOk := fun _ => true }

/-- An environment in which the repair composer fails on every repair
packet except the first. -/
def composeFailEnv : Env :=
  { allocOk := fun _ => true
    encodeOk := true
    composeSourceOk := true
    composeRepairOk := fun i => i == 0
    writeSourceOk := true
    writeRepairOk := fun _ => true }

end RocFec

namespace RocPipeline

/-- A sample specification as used by `TranscoderSource`: only the sample
rate and the channel set influence the constructor's control flow
(transcoder_source.cpp lines 30-75). -/
structure SampleSpec where
  sample_rate : Nat
  channel_set : Nat
deriving Repr, DecidableEq, Inhabited

/-- `TranscoderConfig` as consumed by `TranscoderSource`: the input and
output sample specifications and the profiling switch.  The config is
taken here already in its post-`deduce_defaults` form, since
`deduce_defaults` is not part of the source excerpt. -/
structure TranscoderConfig where
  input_sample_spec : SampleSpec
  output_sample_spec : SampleSpec
  enable_profiling : Bool
deriving Repr, DecidableEq

/-- Status codes used by the `TranscoderSource` constructor
(transcoder_source.cpp lines 25, 43, 62, 65, 71, 80, 87). -/
inductive PStatus where
  | noStatus
  | statusOK
  | statusNoMem
  | statusErr
deriving Repr, DecidableEq

/-- Outcomes of the collaborator constructions performed by the
`TranscoderSource` constructor: the init statuses of the channel-mapper
reader, the resampler, the resampler reader and the profiling reader, and
whether the resampler allocation itself succeeded
(transcoder_source.cpp lines 40-83). -/
structure TEnv where
  channelMapperInit : PStatus
  resamplerAllocOk : Bool
  resamplerInit : PStatus
  resamplerReaderInit : PStatus
  profilerInit : PStatus
deriving Repr, DecidableEq

/-- The state of a `TranscoderSource` after construction: which optional
pipeline stages were built, whether the frame-reader chain was completed,
and the init status (transcoder_source.cpp lines 17-88). -/
structure TranscoderSource where
  config : TranscoderConfig
  hasChannelMapper : Bool
  hasResampler : Bool
  hasProfiler : Bool
  frameReaderSet : Bool
  init_status : PStatus
deriving Repr, DecidableEq

/-- The `TranscoderSource` constructor (transcoder_source.cpp lines
17-88): builds a channel-mapper reader when the channel sets differ, a
resampler plus resampler reader when the sample rates differ, and a
profiling reader when profiling is enabled, stopping at the first stage
whose construction fails and recording that stage's status; on success the
frame-reader chain is complete and the status is `statusOK`. -/
def mkTranscoderSource (cfg : TranscoderConfig) (env : TEnv) : TranscoderSource := Id.run do
  let mut t : TranscoderSource :=
    { config := cfg
      hasChannelMapper := false
      hasResampler := false
      hasProfiler := false
      frameReaderSet := false
      init_status := PStatus.noStatus }
  if cfg.input_sample_spec.channel_set ≠ cfg.output_sample_spec.channel_set then
    t := { t with hasChannelMapper := true }
    if env.channelMapperInit ≠ PStatus.statusOK then
      return { t with init_status := env.channelMapperInit }
  if cfg.input_sample_spec.sample_rate ≠ cfg.output_sample_spec.sample_rate then
    if !env.resamplerAllocOk then
      return { t with init_status := PStatus.statusNoMem }
    t := { t with hasResampler := true }
    if env.resamplerInit ≠ PStatus.statusOK then
      return { t with init_status := env.resamplerInit }
    if env.resamplerReaderInit ≠ PStatus.statusOK then
      return { t with init_status := env.resamplerReaderInit }
  if cfg.enable_profiling then
    t := { t with hasProfiler := true }
    if env.profilerInit ≠ PStatus.statusOK then
      return { t with init_status := env.profilerInit }
  return { t with frameReaderSet := true, init_status := PStatus.statusOK }

/-- `TranscoderSource::init_status` (transcoder_source.cpp lines 90-92). -/
def TranscoderSource.initStatus (t : TranscoderSource) : PStatus :=
  t.init_status

/-- `TranscoderSource::to_sink` (transcoder_source.cpp lines 94-96):
always `NULL` — the transcoder is a source only. -/
def TranscoderSource.to_sink (_ : TranscoderSource) : Option Unit :=
  none

/-- `TranscoderSource::to_source` (transcoder_source.cpp lines 98-100):
returns the object itself. -/
def TranscoderSource.to_source (t : TranscoderSource) : Option TranscoderSource :=
  some t

/-- `TranscoderSource::sample_spec` (transcoder_source.cpp lines
122-124). -/
def TranscoderSource.sample_spec (t : TranscoderSource) : SampleSpec :=
  t.config.output_sample_spec

/-- `TranscoderSource::latency` (transcoder_source.cpp lines 126-128):
always zero nanoseconds. -/
def TranscoderSource.latency (_ : TranscoderSource) : Int :=
  0

/-- `TranscoderSource::has_latency` (transcoder_source.cpp lines
130-132): always false. -/
def TranscoderSource.has_latency (_ : TranscoderSource) : Bool :=
  false

/-- A configuration exercising all three optional stages: differing
channel sets, differing sample rates and profiling enabled. -/
def c10Config : TranscoderConfig :=
  { input_sample_spec := { sample_rate := 44100, channel_set := 1 }
    output_sample_spec := { sample_rate := 48000, channel_set := 2 }
    enable_profiling := true }

/-- Collaborator outcomes in which every stage constructs successfully. -/
def c10Env : TEnv :=
  { channelMapperInit := PStatus.statusOK
    resamplerAllocOk := true
    resamplerInit := PStatus.statusOK
    resamplerReaderInit := PStatus.statusOK
    profilerInit := PStatus.statusOK }

end RocPipeline

namespace RocFec

/-! ### Helper lemmas about the collaborator runs -/

@[simp] lemma okEnv_allocOk (i : Nat) : okEnv.allocOk i = true := rfl

@[simp] lemma okEnv_encodeOk : okEnv.encodeOk = true := rfl

@[simp] lemma okEnv_composeSourceOk : okEnv.composeSourceOk = true := rfl

@[simp] lemma okEnv_composeRepairOk (i : Nat) : okEnv.composeRepairOk i = true := rfl

@[simp] lemma okEnv_writeSourceOk : okEnv.writeSourceOk = true := rfl

@[simp] lemma okEnv_writeRepairOk (i : Nat) : okEnv.writeRepairOk i = true := rfl

lemma alloc_run_okEnv (l : List Nat) :
    alloc_run okEnv l = (l.map Event.allocCall, true) := by
  induction l with
  | nil => rfl
  | cons i rest ih => simp [alloc_run, ih]

lemma compose_run_okEnv (l : List Nat) :
    compose_run okEnv l = (l.map Event.composeRepairCall, true) := by
  induction l with
  | nil => rfl
  | cons i rest ih => simp [compose_run, ih]

lemma write_repair_run_okEnv (i : Nat) (ps : List Packet) :
    write_repair_run okEnv i ps = (ps.map Event.writeRepair, true) := by
  induction ps generalizing i with
  | nil => rfl
  | cons p rest ih => simp [write_repair_run, ih]

lemma repair_phase_okEnv (w : Writer) :
    repair_phase okEnv w =
      (repairTraceOk w,
       { w with
           cur_block_repair_sn := w.cur_block_repair_sn + w.cur_rblen
           repair_block := repair_packets w },
       Status.ok) := by
  simp [repair_phase, alloc_run_okEnv, compose_run_okEnv, write_repair_run_okEnv,
        repairTraceOk]

lemma mem_alloc_run (env : Env) (l : List Nat) (e : Event)
    (h : e ∈ (alloc_run env l).1) : ∃ i, e = Event.allocCall i := by
  induction l with
  | nil => simp [alloc_run] at h
  | cons i rest ih =>
    by_cases hi : env.allocOk i
    · simp [alloc_run, hi] at h
      rcases h with h | h
      · exact ⟨i, h⟩
      · exact ih h
    · simp [alloc_run, hi] at h
      exact ⟨i, h⟩

lemma mem_compose_run (env : Env) (l : List Nat) (e : Event)
    (h : e ∈ (compose_run env l).1) : ∃ i, e = Event.composeRepairCall i := by
  induction l with
  | nil => simp [compose_run] at h
  | cons i rest ih =>
    by_cases hi : env.composeRepairOk i
    · simp [compose_run, hi] at h
      rcases h with h | h
      · exact ⟨i, h⟩
      · exact ih h
    · simp [compose_run, hi] at h
      exact ⟨i, h⟩

lemma mem_write_repair_run (env : Env) (i : Nat) (ps : List Packet) (e : Event)
    (h : e ∈ (write_repair_run env i ps).1) : ∃ p, e = Event.writeRepair p := by
  induction ps generalizing i with
  | nil => simp [write_repair_run] at h
  | cons p rest ih =>
    by_cases hi : env.writeRepairOk i
    · simp [write_repair_run, hi] at h
      rcases h with h | h
      · exact ⟨p, h⟩
      · exact ih _ h
    · simp [write_repair_run, hi] at h
      exact ⟨p, h⟩

lemma alloc_run_fails (env : Env) (l : List Nat)
    (h : ∃ i ∈ l, env.allocOk i = false) : (alloc_run env l).2 = false := by
  induction l with
  | nil => simp at h
  | cons i rest ih =>
    by_cases hi : env.allocOk i
    · simp [alloc_run, hi]
      rcases h with ⟨j, hj, hjf⟩
      rcases List.mem_cons.mp hj with rfl | hj'
      · rw [hi] at hjf; cases hjf
      · have := ih ⟨j, hj', hjf⟩
        simpa [alloc_run, hi] using this
    · simp [alloc_run, hi]

lemma compose_run_fails (env : Env) (l : List Nat)
    (h : ∃ i ∈ l, env.composeRepairOk i = false) : (compose_run env l).2 = false := by
  induction l with
  | nil => simp at h
  | cons i rest ih =>
    by_cases hi : env.composeRepairOk i
    · simp [compose_run, hi]
      rcases h with ⟨j, hj, hjf⟩
      rcases List.mem_cons.mp hj with rfl | hj'
      · rw [hi] at hjf; cases hjf
      · have := ih ⟨j, hj', hjf⟩
        simpa [compose_run, hi] using this
    · simp [compose_run, hi]

lemma repair_phase_fails (env : Env) (w : Writer)
    (h : repairPhaseFails env w.cur_rblen) :
    (repair_phase env w).2.2 ≠ Status.ok := by
  rcases h with ⟨i, hi, hf⟩ | he | ⟨i, hi, hf⟩
  · have : (alloc_run env (List.range w.cur_rblen)).2 = false :=
      alloc_run_fails env _ ⟨i, by simpa using hi, hf⟩
    simp [repair_phase, this]
  · by_cases ha : (alloc_run env (List.range w.cur_rblen)).2
    · simp [repair_phase, ha, he]
    · simp [repair_phase, ha]
  · by_cases ha : (alloc_run env (List.range w.cur_rblen)).2
    · by_cases he : env.encodeOk
      · have hc : (compose_run env (List.range w.cur_rblen)).2 = false :=
          compose_run_fails env _ ⟨i, by simpa using hi, hf⟩
        simp [repair_phase, ha, he, hc]
      · simp [repair_phase, ha, he]
    · simp [repair_phase, ha]

lemma write_dead (env : Env) (w : Writer) (pp : PacketIn) (h : w.alive = false) :
    write env w pp = ([], w, Status.abort) := by
  simp [write, h]

lemma write_begin (env : Env) (w : Writer) (pp : PacketIn)
    (halive : w.alive = true) (h0 : w.cur_packet = 0) :
    write env w pp = write_source_packet_ env (begin_block_ w pp) pp := by
  simp [write, halive, h0]

lemma write_mid_state (env : Env) (w : Writer) (pp : PacketIn)
    (halive : w.alive = true) (h0 : ¬ w.cur_packet = 0) :
    write env w pp = write_source_packet_ env w pp := by
  simp [write, halive, h0]

lemma wsp_invalid (env : Env) (w : Writer) (pp : PacketIn)
    (hv : validate_source_packet_ w pp = false) :
    write_source_packet_ env w pp = ([], w, Status.badPacket) := by
  simp [write_source_packet_, hv]

lemma wsp_mid (env : Env) (w : Writer) (pp : PacketIn)
    (hv : validate_source_packet_ w pp = true)
    (hcs : env.composeSourceOk = true) (hws : env.writeSourceOk = true)
    (hne : ¬ w.cur_packet + 1 = w.cur_sblen) :
    write_source_packet_ env w pp =
      ([Event.composeSourceCall,
        Event.writeSource (fill_packet_fec_fields_ w pp)],
       { w with cur_packet := w.cur_packet + 1 }, Status.ok) := by
  unfold write_source_packet_
  rw [if_pos hv, if_pos hcs, if_pos hws, if_neg hne]

lemma wsp_complete_ok (env : Env) (w : Writer) (pp : PacketIn)
    (hv : validate_source_packet_ w pp = true)
    (hcs : env.composeSourceOk = true) (hws : env.writeSourceOk = true)
    (heq : w.cur_packet + 1 = w.cur_sblen)
    (hok : (repair_phase env { w with cur_packet := w.cur_packet + 1 }).2.2
      = Status.ok) :
    write_source_packet_ env w pp =
      ([Event.composeSourceCall,
        Event.writeSource (fill_packet_fec_fields_ w pp)]
         ++ (repair_phase env { w with cur_packet := w.cur_packet + 1 }).1,
       next_block_ (end_block_
         (repair_phase env { w with cur_packet := w.cur_packet + 1 }).2.1),
       Status.ok) := by
  unfold write_source_packet_
  rw [if_pos hv, if_pos hcs, if_pos hws, if_pos heq, if_pos hok]

lemma wsp_complete_fail (env : Env) (w : Writer) (pp : PacketIn)
    (hv : validate_source_packet_ w pp = true)
    (hcs : env.composeSourceOk = true) (hws : env.writeSourceOk = true)
    (heq : w.cur_packet + 1 = w.cur_sblen)
    (hbad : ¬ (repair_phase env { w with cur_packet := w.cur_packet + 1 }).2.2
      = Status.ok) :
    write_source_packet_ env w pp =
      ([Event.composeSourceCall,
        Event.writeSource (fill_packet_fec_fields_ w pp)]
         ++ (repair_phase env { w with cur_packet := w.cur_packet + 1 }).1,
       { (repair_phase env { w with cur_packet := w.cur_packet + 1 }).2.1 with
           alive := false },
       (repair_phase env { w with cur_packet := w.cur_packet + 1 }).2.2) := by
  unfold write_source_packet_
  rw [if_pos hv, if_pos hcs, if_pos hws, if_pos heq, if_neg hbad]

/-- C5: a `resize(sblen, rblen)` call with either argument outside the
encoder's supported range returns failure without mutating any writer
state; in particular `next_sblen_`/`next_rblen_` are unchanged. -/
theorem resize_invalid_no_mutation (w : Writer) (a b : Nat)
    (h : ¬ sizesValid w a b) :
    resize w a b = (w, false) := by
  simp [resize, h]

theorem resize_invalid_no_mutation_witness :
    ¬ sizesValid (mkWriter 4 2 20 20) 0 2 ∧
      resize (mkWriter 4 2 20 20) 0 2 = (mkWriter 4 2 20 20, false) :=
  ⟨by decide, resize_invalid_no_mutation (mkWriter 4 2 20 20) 0 2 (by decide)⟩

/-- C4: a `write()` call submitting a source packet with an empty payload,
or with a payload size differing from the block's established
`payload_size`, fails with a validation error, leaves the writer alive and
does not advance `cur_packet_`, so a corrected packet can be retried. -/
theorem write_validation_error (env : Env) (w : Writer) (pp : PacketIn)
    (halive : w.alive = true)
    (hbad : pp.payload_size = 0
      ∨ (0 < w.cur_packet ∧ pp.payload_size ≠ w.cur_payload_size)) :
    (write env w pp).2.2 = Status.badPacket ∧
    (write env w pp).2.1.alive = true ∧
    (write env w pp).2.1.cur_packet = w.cur_packet := by
  rcases hbad with h0 | ⟨hc, hne⟩
  · have hv : ∀ w' : Writer, validate_source_packet_ w' pp = false := by
      intro w'; simp [validate_source_packet_, h0]
    by_cases hz : w.cur_packet = 0
    · rw [write_begin env w pp halive hz, wsp_invalid env _ pp (hv _)]
      exact ⟨rfl, halive, rfl⟩
    · rw [write_mid_state env w pp halive hz, wsp_invalid env w pp (hv w)]
      exact ⟨rfl, halive, rfl⟩
  · have hz : ¬ w.cur_packet = 0 := by omega
    have hv : validate_source_packet_ w pp = false := by
      simp [validate_source_packet_]
      intro _; exact hne
    rw [write_mid_state env w pp halive hz, wsp_invalid env w pp hv]
    exact ⟨rfl, halive, rfl⟩

theorem write_validation_error_witness :
    (write okEnv
        { mkWriter 4 2 20 20 with cur_packet := 2, cur_payload_size := 160 }
        { sn := 7, ts := 80, payload_size := 100 }).2.2 = Status.badPacket ∧
    (write okEnv
        { mkWriter 4 2 20 20 with cur_packet := 2, cur_payload_size := 160 }
        { sn := 7, ts := 80, payload_size := 100 }).2.1.alive = true ∧
    (write okEnv
        { mkWriter 4 2 20 20 with cur_packet := 2, cur_payload_size := 160 }
        { sn := 7, ts := 80, payload_size := 100 }).2.1.cur_packet
      = ({ mkWriter 4 2 20 20 with
            cur_packet := 2, cur_payload_size := 160 } : Writer).cur_packet :=
  write_validation_error okEnv
    { mkWriter 4 2 20 20 with cur_packet := 2, cur_payload_size := 160 }
    { sn := 7, ts := 80, payload_size := 100 } (by decide) (by decide)

/-- C2, counterexample to the claim as stated: a valid `resize` call does
not only store the new values into `next_sblen_`/`next_rblen_` — it also
resets the block-duration statistics (spec sections 4.3 and 8), so the
resulting state differs from the state with only the pending fields
updated. -/
theorem resize_not_only_pending_fields :
    (resize c2State 8 4).1 ≠ { c2State with next_sblen := 8, next_rblen := 4 } := by
  decide

/-- C2, amended: a valid mid-block `resize(sblen, rblen)` stores the new
values into the pending `next_sblen_`/`next_rblen_` fields and resets the
block-duration statistics, but never changes the current block's
parameters or the `sblen`/`rblen` metadata stamped on any packet of the
block in progress (source stamping and the pending repair packets are
unchanged); the new values take effect with the first packet of the next
block. -/
theorem resize_deferred_application (w : Writer) (a b : Nat) (pp : PacketIn)
    (h : sizesValid w a b) :
    (resize w a b).1
      = { w with
            next_sblen := a
            next_rblen := b
            prev_block_ts_valid := false
            block_max_duration := none } ∧
    (resize w a b).1.cur_sblen = w.cur_sblen ∧
    (resize w a b).1.cur_rblen = w.cur_rblen ∧
    (resize w a b).1.cur_sbn = w.cur_sbn ∧
    (resize w a b).1.cur_packet = w.cur_packet ∧
    fill_packet_fec_fields_ (resize w a b).1 pp = fill_packet_fec_fields_ w pp ∧
    repair_packets (resize w a b).1 = repair_packets w ∧
    (begin_block_ (resize w a b).1 pp).cur_sblen = a ∧
    (begin_block_ (resize w a b).1 pp).cur_rblen = b := by
  simp [resize, h, fill_packet_fec_fields_, repair_packets, make_repair_packet_,
        begin_block_]

theorem resize_deferred_application_witness :
    (resize c2State 8 4).1
      = { c2State with
            next_sblen := 8
            next_rblen := 4
            prev_block_ts_valid := false
            block_max_duration := none } ∧
    (resize c2State 8 4).1.cur_sblen = c2State.cur_sblen ∧
    (resize c2State 8 4).1.cur_rblen = c2State.cur_rblen ∧
    (resize c2State 8 4).1.cur_sbn = c2State.cur_sbn ∧
    (resize c2State 8 4).1.cur_packet = c2State.cur_packet ∧
    fill_packet_fec_fields_ (resize c2State 8 4).1 { sn := 9, ts := 120, payload_size := 160 }
      = fill_packet_fec_fields_ c2State { sn := 9, ts := 120, payload_size := 160 } ∧
    repair_packets (resize c2State 8 4).1 = repair_packets c2State ∧
    (begin_block_ (resize c2State 8 4).1 { sn := 9, ts := 120, payload_size := 160 }).cur_sblen = 8 ∧
    (begin_block_ (resize c2State 8 4).1 { sn := 9, ts := 120, payload_size := 160 }).cur_rblen = 4 :=
  resize_deferred_application c2State 8 4 { sn := 9, ts := 120, payload_size := 160 } (by decide)

lemma repair_phase_fails_no_repair_write (env : Env) (w : Writer)
    (h : repairPhaseFails env w.cur_rblen) (p : Packet) :
    Event.writeRepair p ∉ (repair_phase env w).1 := by
  intro hmem
  by_cases ha : (alloc_run env (List.range w.cur_rblen)).2
  · by_cases he : env.encodeOk
    · by_cases hc : (compose_run env (List.range w.cur_rblen)).2
      · -- with all three phases succeeding, the hypothesis is contradictory
        rcases h with ⟨i, hi, hf⟩ | hee | ⟨i, hi, hf⟩
        · have := alloc_run_fails env (List.range w.cur_rblen) ⟨i, by simpa using hi, hf⟩
          rw [this] at ha; cases ha
        · rw [hee] at he; cases he
        · have := compose_run_fails env (List.range w.cur_rblen) ⟨i, by simpa using hi, hf⟩
          rw [this] at hc; cases hc
      · simp [repair_phase, ha, he, hc] at hmem
        rcases hmem with hmem | hmem
        · rcases mem_alloc_run env _ _ hmem with ⟨i, hie⟩; cases hie
        · rcases mem_compose_run env _ _ hmem with ⟨i, hie⟩; cases hie
    · simp [repair_phase, ha, he] at hmem
      rcases mem_alloc_run env _ _ hmem with ⟨i, hie⟩; cases hie
  · simp [repair_phase, ha] at hmem
    rcases mem_alloc_run env _ _ hmem with ⟨i, hie⟩; cases hie


lemma compose_run_sound (env : Env) (l : List Nat)
    (h : (compose_run env l).2 = true) :
    (∀ i ∈ l, env.composeRepairOk i = true) ∧
      (compose_run env l).1 = l.map Event.composeRepairCall := by
  induction l with
  | nil => simp [compose_run]
  | cons i rest ih =>
    by_cases hi : env.composeRepairOk i
    · simp [compose_run, hi] at h
      rcases ih h with ⟨h1, h2⟩
      refine ⟨?_, ?_⟩
      · intro j hj
        rcases List.mem_cons.mp hj with rfl | hj'
        · exact hi
        · exact h1 j hj'
      · simp [compose_run, hi, h2]
    · simp [compose_run, hi] at h

/-- C3: if an allocation, encoder or composer failure occurs during repair
synthesis, the triggering `write()` fails and the writer becomes
permanently non-alive — even though that call's source packet has already
reached the downstream writer — and every subsequent `write()` call fails
immediately with an empty interaction trace (no downstream write, no
composer, no factory, no encoder call) and unchanged state. -/
theorem write_repair_failure_kills_writer (env : Env) (w : Writer) (pp : PacketIn)
    (halive : w.alive = true)
    (hpos : 0 < w.cur_packet)
    (hlast : w.cur_packet + 1 = w.cur_sblen)
    (hpay : pp.payload_size = w.cur_payload_size)
    (hppos : 0 < pp.payload_size)
    (hcs : env.composeSourceOk = true)
    (hws : env.writeSourceOk = true)
    (hfail : repairPhaseFails env w.cur_rblen) :
    (write env w pp).2.2 ≠ Status.ok ∧
    (write env w pp).2.1.alive = false ∧
    Event.writeSource (fill_packet_fec_fields_ w pp) ∈ (write env w pp).1 ∧
    ∀ (env2 : Env) (pp2 : PacketIn),
      write env2 (write env w pp).2.1 pp2 = ([], (write env w pp).2.1, Status.abort) := by
  have hz : ¬ w.cur_packet = 0 := by omega
  have hv : validate_source_packet_ w pp = true := by
    simp [validate_source_packet_]
    exact ⟨hppos, hpay⟩
  have hrf : ¬ (repair_phase env { w with cur_packet := w.cur_packet + 1 }).2.2
      = Status.ok := by
    exact repair_phase_fails env _ hfail
  have hw : write env w pp =
      ([Event.composeSourceCall, Event.writeSource (fill_packet_fec_fields_ w pp)]
         ++ (repair_phase env { w with cur_packet := w.cur_packet + 1 }).1,
       { (repair_phase env { w with cur_packet := w.cur_packet + 1 }).2.1 with
           alive := false },
       (repair_phase env { w with cur_packet := w.cur_packet + 1 }).2.2) := by
    rw [write_mid_state env w pp halive hz,
        wsp_complete_fail env w pp hv hcs hws hlast hrf]
  rw [hw]
  refine ⟨hrf, rfl, by simp, ?_⟩
  intro env2 pp2
  exact write_dead env2 _ pp2 rfl

theorem write_repair_failure_kills_writer_witness :
    repairPhaseFails allocFailEnv
        ({ mkWriter 4 2 20 20 with
            cur_packet := 3, cur_payload_size := 160 } : Writer).cur_rblen ∧
    ((write allocFailEnv
        { mkWriter 4 2 20 20 with cur_packet := 3, cur_payload_size := 160 }
        { sn := 3, ts := 120, payload_size := 160 }).2.2 ≠ Status.ok ∧
     (write allocFailEnv
        { mkWriter 4 2 20 20 with cur_packet := 3, cur_payload_size := 160 }
        { sn := 3, ts := 120, payload_size := 160 }).2.1.alive = false ∧
     Event.writeSource (fill_packet_fec_fields_
        { mkWriter 4 2 20 20 with cur_packet := 3, cur_payload_size := 160 }
        { sn := 3, ts := 120, payload_size := 160 })
       ∈ (write allocFailEnv
        { mkWriter 4 2 20 20 with cur_packet := 3, cur_payload_size := 160 }
        { sn := 3, ts := 120, payload_size := 160 }).1 ∧
     ∀ (env2 : Env) (pp2 : PacketIn),
       write env2 (write allocFailEnv
          { mkWriter 4 2 20 20 with cur_packet := 3, cur_payload_size := 160 }
          { sn := 3, ts := 120, payload_size := 160 }).2.1 pp2
         = ([], (write allocFailEnv
            { mkWriter 4 2 20 20 with cur_packet := 3, cur_payload_size := 160 }
            { sn := 3, ts := 120, payload_size := 160 }).2.1, Status.abort)) :=
  ⟨Or.inl ⟨0, by decide, rfl⟩,
   write_repair_failure_kills_writer allocFailEnv
     { mkWriter 4 2 20 20 with cur_packet := 3, cur_payload_size := 160 }
     { sn := 3, ts := 120, payload_size := 160 }
     (by decide) (by decide) (by decide) (by decide) (by decide) rfl rfl
     (Or.inl ⟨0, by decide, rfl⟩)⟩

/-- C8: during repair synthesis, a repair-composer failure on any single
packet fails the whole repair phase with no repair packet transmitted; a
repair packet appears downstream only if every one of the block's
`cur_rblen_` composer calls succeeded (and is in the trace); and the
repair-phase trace splits into a prefix without downstream repair writes
followed by only the downstream repair writes — never a half-composed
block downstream. -/
theorem repair_write_only_after_all_composed (env : Env) (w : Writer) :
    ((∃ i < w.cur_rblen, env.composeRepairOk i = false) →
        (repair_phase env w).2.2 ≠ Status.ok ∧
        ∀ p, Event.writeRepair p ∉ (repair_phase env w).1) ∧
    (∀ p, Event.writeRepair p ∈ (repair_phase env w).1 →
        ∀ j < w.cur_rblen, env.composeRepairOk j = true ∧
          Event.composeRepairCall j ∈ (repair_phase env w).1) ∧
    (∃ pre post, (repair_phase env w).1 = pre ++ post ∧
        (∀ p, Event.writeRepair p ∉ pre) ∧
        (∀ e ∈ post, ∃ p, e = Event.writeRepair p)) := by
  by_cases ha : (alloc_run env (List.range w.cur_rblen)).2 = true
  case neg =>
    have htr : (repair_phase env w).1 = (alloc_run env (List.range w.cur_rblen)).1 := by
      simp [repair_phase, ha]
    have hnw : ∀ p, Event.writeRepair p ∉ (repair_phase env w).1 := by
      intro p hp
      rw [htr] at hp
      rcases mem_alloc_run env _ _ hp with ⟨i, hie⟩
      cases hie
    have hst : (repair_phase env w).2.2 ≠ Status.ok := by
      simp [repair_phase, ha]
    refine ⟨fun _ => ⟨hst, hnw⟩, ?_, (repair_phase env w).1, [], by simp, hnw, by simp⟩
    intro p hp
    exact absurd hp (hnw p)
  case pos =>
  by_cases he : env.encodeOk = true
  case neg =>
    have htr : (repair_phase env w).1
        = (alloc_run env (List.range w.cur_rblen)).1 ++ [Event.encodeCall] := by
      simp [repair_phase, ha, he]
    have hnw : ∀ p, Event.writeRepair p ∉ (repair_phase env w).1 := by
      intro p hp
      rw [htr] at hp
      rcases List.mem_append.mp hp with hp | hp
      · rcases mem_alloc_run env _ _ hp with ⟨i, hie⟩
        cases hie
      · simp at hp
    have hst : (repair_phase env w).2.2 ≠ Status.ok := by
      simp [repair_phase, ha, he]
    refine ⟨fun _ => ⟨hst, hnw⟩, ?_, (repair_phase env w).1, [], by simp, hnw, by simp⟩
    intro p hp
    exact absurd hp (hnw p)
  case pos =>
  by_cases hc : (compose_run env (List.range w.cur_rblen)).2 = true
  case neg =>
    have htr : (repair_phase env w).1
        = (alloc_run env (List.range w.cur_rblen)).1
            ++ Event.encodeCall :: (compose_run env (List.range w.cur_rblen)).1 := by
      simp [repair_phase, ha, he, hc]
    have hnw : ∀ p, Event.writeRepair p ∉ (repair_phase env w).1 := by
      intro p hp
      rw [htr] at hp
      rcases List.mem_append.mp hp with hp | hp
      · rcases mem_alloc_run env _ _ hp with ⟨i, hie⟩
        cases hie
      · rcases List.mem_cons.mp hp with hp | hp
        · cases hp
        · rcases mem_compose_run env _ _ hp with ⟨i, hie⟩
          cases hie
    have hst : (repair_phase env w).2.2 ≠ Status.ok := by
      simp [repair_phase, ha, he, hc]
    refine ⟨fun _ => ⟨hst, hnw⟩, ?_, (repair_phase env w).1, [], by simp, hnw, by simp⟩
    intro p hp
    exact absurd hp (hnw p)
  case pos =>
  rcases compose_run_sound env _ hc with ⟨h1, h2⟩
  have htr : (repair_phase env w).1
      = (alloc_run env (List.range w.cur_rblen)).1
          ++ Event.encodeCall
            :: ((List.range w.cur_rblen).map Event.composeRepairCall
                  ++ (write_repair_run env 0 (repair_packets w)).1) := by
    by_cases hwr : (write_repair_run env 0 (repair_packets w)).2 = true <;>
      simp [repair_phase, ha, he, hc, h2, hwr]
  refine ⟨?_, ?_, ?_⟩
  · intro hex
    exfalso
    rcases hex with ⟨j, hj, hjf⟩
    have hh := h1 j (List.mem_range.mpr hj)
    rw [hh] at hjf
    cases hjf
  · intro p _ j hj
    refine ⟨h1 j (List.mem_range.mpr hj), ?_⟩
    rw [htr]
    exact List.mem_append_right _ (List.mem_cons_of_mem _
      (List.mem_append_left _ (List.mem_map_of_mem _ (List.mem_range.mpr hj))))
  · refine ⟨(alloc_run env (List.range w.cur_rblen)).1
        ++ Event.encodeCall :: (List.range w.cur_rblen).map Event.composeRepairCall,
      (write_repair_run env 0 (repair_packets w)).1, ?_, ?_, ?_⟩
    · rw [htr, List.append_assoc, List.cons_append]
    · intro p hp
      rcases List.mem_append.mp hp with hp | hp
      · rcases mem_alloc_run env _ _ hp with ⟨i, hie⟩
        cases hie
      · rcases List.mem_cons.mp hp with hp | hp
        · cases hp
        · rcases List.mem_map.mp hp with ⟨i, _, hie⟩
          cases hie
    · intro e he2
      exact mem_write_repair_run env _ _ e he2

theorem repair_write_only_after_all_composed_witness :
    (∃ i < (mkWriter 4 2 20 20).cur_rblen, composeFailEnv.composeRepairOk i = false) ∧
    (((∃ i < (mkWriter 4 2 20 20).cur_rblen, composeFailEnv.composeRepairOk i = false) →
        (repair_phase composeFailEnv (mkWriter 4 2 20 20)).2.2 ≠ Status.ok ∧
        ∀ p, Event.writeRepair p ∉ (repair_phase composeFailEnv (mkWriter 4 2 20 20)).1) ∧
     (∀ p, Event.writeRepair p ∈ (repair_phase composeFailEnv (mkWriter 4 2 20 20)).1 →
        ∀ j < (mkWriter 4 2 20 20).cur_rblen, composeFailEnv.composeRepairOk j = true ∧
          Event.composeRepairCall j ∈ (repair_phase composeFailEnv (mkWriter 4 2 20 20)).1) ∧
     (∃ pre post, (repair_phase composeFailEnv (mkWriter 4 2 20 20)).1 = pre ++ post ∧
        (∀ p, Event.writeRepair p ∉ pre) ∧
        (∀ e ∈ post, ∃ p, e = Event.writeRepair p))) :=
  ⟨⟨1, by decide, rfl⟩,
   repair_write_only_after_all_composed composeFailEnv (mkWriter 4 2 20 20)⟩

end RocFec

namespace RocPipeline

/-- C10: every successfully constructed `TranscoderSource` reports a
latency of zero and `has_latency` false, regardless of which optional
stages (channel mapping, resampling, profiling) were built, and `to_sink`
always returns null — the transcoder is a source only. -/
theorem transcoder_source_is_source_only (cfg : TranscoderConfig) (env : TEnv)
    (_h : (mkTranscoderSource cfg env).init_status = PStatus.statusOK) :
    (mkTranscoderSource cfg env).latency = 0 ∧
    (mkTranscoderSource cfg env).has_latency = false ∧
    (mkTranscoderSource cfg env).to_sink = none :=
  ⟨rfl, rfl, rfl⟩

theorem transcoder_source_is_source_only_witness :
    (mkTranscoderSource c10Config c10Env).init_status = PStatus.statusOK ∧
    ((mkTranscoderSource c10Config c10Env).latency = 0 ∧
     (mkTranscoderSource c10Config c10Env).has_latency = false ∧
     (mkTranscoderSource c10Config c10Env).to_sink = none) :=
  ⟨by decide, transcoder_source_is_source_only c10Config c10Env (by decide)⟩

end RocPipeline

namespace RocFec

lemma repairTraceOk_set_cur_packet (w : Writer) (k : Nat) :
    repairTraceOk { w with cur_packet := k } = repairTraceOk w := rfl

lemma writeMany_fill (pkts : List PacketIn) :
    ∀ w : Writer, w.alive = true → w.cur_packet ≠ 0 →
      w.cur_packet + pkts.length = w.cur_sblen →
      (∀ q ∈ pkts, q.payload_size = w.cur_payload_size) →
      0 < w.cur_payload_size →
      pkts ≠ [] →
      writeMany okEnv w pkts =
        (srcTrace w pkts ++ repairTraceOk w, blockFinal w,
         List.replicate pkts.length Status.ok) := by
  induction pkts with
  | nil => intro w _ _ _ _ _ hne; exact absurd rfl hne
  | cons pp rest ih =>
    intro w halive hz hlen hpay hpos _
    obtain ⟨cs, ns, cr, nr, cps, fp, al, sbn, sn, cp, ms, mr, rb, pv, pt, cbt, bmd⟩ := w
    simp only at halive hz hlen hpay hpos
    subst halive
    have hvp : validate_source_packet_
        ⟨cs, ns, cr, nr, cps, fp, true, sbn, sn, cp, ms, mr, rb, pv, pt, cbt, bmd⟩ pp
        = true := by
      have h1 : pp.payload_size = cps := hpay pp (by simp)
      simp [validate_source_packet_, h1]
      omega
    rcases rest with _ | ⟨q2, rest2⟩
    · have heq : cp + 1 = cs := by simpa using hlen
      subst heq
      have hok : (repair_phase okEnv
          ⟨cp + 1, ns, cr, nr, cps, fp, true, sbn, sn, cp + 1, ms, mr, rb, pv, pt,
            cbt, bmd⟩).2.2 = Status.ok := by
        rw [repair_phase_okEnv]
      simp only [writeMany]
      rw [write_mid_state okEnv
            ⟨cp + 1, ns, cr, nr, cps, fp, true, sbn, sn, cp, ms, mr, rb, pv, pt, cbt, bmd⟩
            pp rfl hz,
          wsp_complete_ok okEnv
            ⟨cp + 1, ns, cr, nr, cps, fp, true, sbn, sn, cp, ms, mr, rb, pv, pt, cbt, bmd⟩
            pp hvp rfl rfl rfl hok,
          repair_phase_okEnv]
      cases pv <;>
        simp [srcTrace, repairTraceOk, repair_packets, make_repair_packet_,
              blockFinal, end_block_, next_block_, fill_packet_fec_fields_]
    · have hne : ¬ cp + 1 = cs := by
        simp at hlen
        omega
      have ihw := ih
        ⟨cs, ns, cr, nr, cps, fp, true, sbn, sn, cp + 1, ms, mr, rb, pv, pt, cbt, bmd⟩
        rfl (by simp) (by simp at hlen ⊢; omega)
        (by intro q3 hq3; exact hpay q3 (by simp [hq3]))
        hpos (by simp)
      rw [writeMany]
      rw [write_mid_state okEnv
            ⟨cs, ns, cr, nr, cps, fp, true, sbn, sn, cp, ms, mr, rb, pv, pt, cbt, bmd⟩
            pp rfl hz,
          wsp_mid okEnv
            ⟨cs, ns, cr, nr, cps, fp, true, sbn, sn, cp, ms, mr, rb, pv, pt, cbt, bmd⟩
            pp hvp rfl rfl hne]
      dsimp only
      rw [ihw]
      cases pv <;>
        simp [srcTrace, repairTraceOk, repair_packets, make_repair_packet_,
              blockFinal, end_block_, next_block_, fill_packet_fec_fields_,
              List.replicate_succ]

end RocFec

namespace RocFec

lemma block_run (w : Writer) (pp : PacketIn) (rest : List PacketIn)
    (halive : w.alive = true) (h0 : w.cur_packet = 0)
    (hlen : (pp :: rest).length = w.next_sblen)
    (hp : 0 < pp.payload_size)
    (hpay : ∀ q ∈ rest, q.payload_size = pp.payload_size) :
    writeMany okEnv w (pp :: rest) =
      (srcTrace (begin_block_ w pp) (pp :: rest)
         ++ repairTraceOk (begin_block_ w pp),
       blockFinal (begin_block_ w pp),
       List.replicate w.next_sblen Status.ok) := by
  obtain ⟨cs, ns, cr, nr, cps, fp, al, sbn, sn, cp, ms, mr, rb, pv, pt, cbt, bmd⟩ := w
  simp only at halive h0 hlen
  subst halive
  subst h0
  have hvp : validate_source_packet_
      ⟨ns, ns, nr, nr, pp.payload_size, false, true, sbn, sn, 0, ms, mr, [], pv, pt,
        pp.ts, bmd⟩ pp = true := by
    simp [validate_source_packet_]
    omega
  rcases rest with _ | ⟨q2, rest2⟩
  · have hns : 1 = ns := by simpa using hlen
    subst hns
    have hok : (repair_phase okEnv
        ⟨1, 1, nr, nr, pp.payload_size, false, true, sbn, sn, 0 + 1, ms, mr, [], pv,
          pt, pp.ts, bmd⟩).2.2 = Status.ok := by
      rw [repair_phase_okEnv]
    rw [writeMany,
        write_begin okEnv
          ⟨cs, 1, cr, nr, cps, fp, true, sbn, sn, 0, ms, mr, rb, pv, pt, cbt, bmd⟩
          pp rfl rfl]
    dsimp only [begin_block_]
    rw [wsp_complete_ok okEnv
          ⟨1, 1, nr, nr, pp.payload_size, false, true, sbn, sn, 0, ms, mr, [], pv, pt,
            pp.ts, bmd⟩
          pp hvp rfl rfl rfl hok,
        repair_phase_okEnv]
    cases pv <;>
      simp [srcTrace, repairTraceOk, repair_packets, make_repair_packet_,
            blockFinal, end_block_, next_block_, fill_packet_fec_fields_, writeMany]
  · have hne : ¬ (0 : Nat) + 1 = ns := by
      simp at hlen
      omega
    have hfill := writeMany_fill (q2 :: rest2)
      ⟨ns, ns, nr, nr, pp.payload_size, false, true, sbn, sn, 0 + 1, ms, mr, [], pv,
        pt, pp.ts, bmd⟩
      rfl (by simp) (by simp at hlen ⊢; omega) (by exact hpay) hp (by simp)
    rw [writeMany,
        write_begin okEnv
          ⟨cs, ns, cr, nr, cps, fp, true, sbn, sn, 0, ms, mr, rb, pv, pt, cbt, bmd⟩
          pp rfl rfl]
    dsimp only [begin_block_]
    rw [wsp_mid okEnv
          ⟨ns, ns, nr, nr, pp.payload_size, false, true, sbn, sn, 0, ms, mr, [], pv,
            pt, pp.ts, bmd⟩
          pp hvp rfl rfl hne]
    dsimp only
    rw [hfill]
    have hns : (q2 :: rest2).length + 1 = ns := by simpa using hlen
    cases pv <;>
      simp [srcTrace, repairTraceOk, repair_packets, make_repair_packet_,
            blockFinal, end_block_, next_block_, fill_packet_fec_fields_,
            ← hns, List.replicate_succ]

end RocFec

namespace RocFec

lemma writeMany_append (env : Env) (l1 l2 : List PacketIn) :
    ∀ w : Writer, writeMany env w (l1 ++ l2)
      = ((writeMany env w l1).1 ++ (writeMany env (writeMany env w l1).2.1 l2).1,
         (writeMany env (writeMany env w l1).2.1 l2).2.1,
         (writeMany env w l1).2.2
           ++ (writeMany env (writeMany env w l1).2.1 l2).2.2) := by
  induction l1 with
  | nil => intro w; simp [writeMany]
  | cons pp rest ih =>
    intro w
    simp only [List.cons_append, writeMany]
    simp only [List.append_eq]
    rw [ih]
    simp [List.append_assoc]

lemma filterMap_const_none {α β : Type} (l : List α) :
    List.filterMap (fun _ => (none : Option β)) l = [] := by
  induction l with
  | nil => rfl
  | cons a l ih => simp [List.filterMap_cons, ih]

lemma filterMap_some_comp {α β : Type} (f : α → β) (l : List α) :
    List.filterMap (fun a => some (f a)) l = l.map f := by
  induction l with
  | nil => rfl
  | cons a l ih => simp [List.filterMap_cons, ih]

lemma repairSns_append (a b : List Event) :
    repairSns (a ++ b) = repairSns a ++ repairSns b := by
  simp [repairSns]

lemma repairSns_srcTrace (pkts : List PacketIn) :
    ∀ w : Writer, repairSns (srcTrace w pkts) = [] := by
  induction pkts with
  | nil => intro w; simp [srcTrace, repairSns]
  | cons pp rest ih =>
    intro w
    simp [srcTrace, repairSns] at ih ⊢
    exact ih _

lemma repairSns_repairTraceOk (w : Writer) :
    repairSns (repairTraceOk w)
      = List.range' w.cur_block_repair_sn w.cur_rblen := by
  simp [repairTraceOk, repairSns, repair_packets, make_repair_packet_,
        List.filterMap_map, Function.comp_def, filterMap_const_none,
        filterMap_some_comp, List.range'_eq_map_range]

lemma blockFinal_begin_fields (w : Writer) (pp : PacketIn) :
    (blockFinal (begin_block_ w pp)).alive = w.alive ∧
    (blockFinal (begin_block_ w pp)).cur_packet = 0 ∧
    (blockFinal (begin_block_ w pp)).next_sblen = w.next_sblen ∧
    (blockFinal (begin_block_ w pp)).next_rblen = w.next_rblen ∧
    (blockFinal (begin_block_ w pp)).cur_sbn = w.cur_sbn + 1 ∧
    (blockFinal (begin_block_ w pp)).cur_block_repair_sn
      = w.cur_block_repair_sn + w.next_rblen ∧
    ((blockFinal (begin_block_ w pp)).prev_block_ts_valid,
     (blockFinal (begin_block_ w pp)).prev_block_ts,
     (blockFinal (begin_block_ w pp)).block_max_duration)
      = durStep (w.prev_block_ts_valid, w.prev_block_ts, w.block_max_duration)
          pp.ts := by
  by_cases h : w.prev_block_ts_valid <;>
    simp [blockFinal, begin_block_, end_block_, next_block_, durStep, h]

lemma runBlocks_spec (blocks : List (List PacketIn)) :
    ∀ w : Writer, w.alive = true → w.cur_packet = 0 → 0 < w.next_sblen →
      (∀ b ∈ blocks, goodBlock w.next_sblen b) →
      (runBlocks okEnv w blocks).2.1.alive = true ∧
      (runBlocks okEnv w blocks).2.1.cur_packet = 0 ∧
      (runBlocks okEnv w blocks).2.1.next_sblen = w.next_sblen ∧
      (runBlocks okEnv w blocks).2.1.next_rblen = w.next_rblen ∧
      (runBlocks okEnv w blocks).2.1.cur_sbn = w.cur_sbn + blocks.length ∧
      (runBlocks okEnv w blocks).2.1.cur_block_repair_sn
        = w.cur_block_repair_sn + blocks.length * w.next_rblen ∧
      ((runBlocks okEnv w blocks).2.1.prev_block_ts_valid,
       (runBlocks okEnv w blocks).2.1.prev_block_ts,
       (runBlocks okEnv w blocks).2.1.block_max_duration)
        = durRun (w.prev_block_ts_valid, w.prev_block_ts, w.block_max_duration)
            (blocks.map firstTs) ∧
      repairSns (runBlocks okEnv w blocks).1
        = List.range' w.cur_block_repair_sn (blocks.length * w.next_rblen) ∧
      (runBlocks okEnv w blocks).2.2
        = List.replicate (blocks.length * w.next_sblen) Status.ok := by
  induction blocks with
  | nil =>
    intro w h1 h2 _ _
    simp [runBlocks, writeMany, repairSns, durRun, h1, h2]
  | cons b blocks ih =>
    intro w halive h0 hns hgood
    rcases hgood b (by simp) with ⟨hblen, p, hppos, hpall⟩
    rcases b with _ | ⟨pp, rest⟩
    · rw [List.length_nil] at hblen; omega
    have hp : 0 < pp.payload_size := by
      rw [hpall pp (by simp)]; exact hppos
    have hpay : ∀ q ∈ rest, q.payload_size = pp.payload_size := by
      intro q hq
      rw [hpall q (by simp [hq]), hpall pp (by simp)]
    have hbr := block_run w pp rest halive h0 hblen hp hpay
    have hjoin : ((pp :: rest) :: blocks).flatten
        = (pp :: rest) ++ blocks.flatten := rfl
    obtain ⟨hf1, hf2, hf3, hf4, hf5, hf6, hf7⟩ := blockFinal_begin_fields w pp
    obtain ⟨hi1, hi2, hi3, hi4, hi5, hi6, hi7, hi8, hi9⟩ :=
      ih (blockFinal (begin_block_ w pp))
        (by rw [hf1]; exact halive)
        hf2
        (by rw [hf3]; exact hns)
        (by intro b2 hb2; rw [hf3]; exact hgood b2 (by simp [hb2]))
    unfold runBlocks at hi1 hi2 hi3 hi4 hi5 hi6 hi7 hi8 hi9 ⊢
    rw [hjoin, writeMany_append, hbr]
    dsimp only
    refine ⟨hi1, hi2, ?_, ?_, ?_, ?_, ?_, ?_, ?_⟩
    · rw [hi3, hf3]
    · rw [hi4, hf4]
    · rw [hi5, hf5]
      simp [List.length_cons]
      omega
    · rw [hi6, hf6, hf4]
      simp [List.length_cons]
      ring
    · rw [hi7, hf7]
      simp [durRun, firstTs]
    · rw [repairSns_append, hi8, repairSns_append, repairSns_srcTrace,
          repairSns_repairTraceOk]
      have hb1 : (begin_block_ w pp).cur_block_repair_sn
          = w.cur_block_repair_sn := rfl
      have hb2 : (begin_block_ w pp).cur_rblen = w.next_rblen := rfl
      rw [hb1, hb2, hf6, hf4, List.nil_append, List.range'_append_1]
      congr 1
      simp [List.length_cons]
      ring
    · rw [hi9, hf3]
      rw [← List.replicate_add]
      congr 1
      simp [List.length_cons]
      ring

end RocFec

namespace RocFec

lemma filter_srcTrace (pkts : List PacketIn) :
    ∀ w : Writer, (srcTrace w pkts).filter isDownstreamWrite = srcWrites w pkts := by
  induction pkts with
  | nil => intro w; simp [srcTrace, srcWrites]
  | cons pp rest ih =>
    intro w
    simp [srcTrace, srcWrites, isDownstreamWrite, ih]

lemma filter_map_allocCall (l : List Nat) :
    (l.map Event.allocCall).filter isDownstreamWrite = [] := by
  induction l with
  | nil => rfl
  | cons i rest ih => simp [isDownstreamWrite, ih]

lemma filter_map_composeRepairCall (l : List Nat) :
    (l.map Event.composeRepairCall).filter isDownstreamWrite = [] := by
  induction l with
  | nil => rfl
  | cons i rest ih => simp [isDownstreamWrite, ih]

lemma filter_map_writeRepair (l : List Packet) :
    (l.map Event.writeRepair).filter isDownstreamWrite
      = l.map Event.writeRepair := by
  induction l with
  | nil => rfl
  | cons q rest ih => simp [isDownstreamWrite, ih]

lemma filter_repairTraceOk (w : Writer) :
    (repairTraceOk w).filter isDownstreamWrite
      = (repair_packets w).map Event.writeRepair := by
  simp [repairTraceOk, List.filter_append, filter_map_allocCall,
        filter_map_composeRepairCall, filter_map_writeRepair, isDownstreamWrite]

lemma durRun_valid (l : List Nat) :
    ∀ t d, (durRun (true, t, some d) l).2.2
      = some ((consecDiffs (t :: l)).foldl max d) := by
  induction l with
  | nil => intro t d; simp [durRun, consecDiffs]
  | cons u l ih =>
    intro t d
    show (durRun (durStep (true, t, some d) u) l).2.2 = _
    rw [show durStep (true, t, some d) u = (true, u, some (max d (u - t))) from by
      simp [durStep]]
    rw [ih]
    simp [consecDiffs]

lemma durRun_valid_none (t : Nat) (l : List Nat) :
    (durRun (true, t, none) l).2.2 = maxConsecDiff (t :: l) := by
  cases l with
  | nil => simp [durRun, maxConsecDiff, consecDiffs]
  | cons u l =>
    show (durRun (durStep (true, t, none) u) l).2.2 = _
    rw [show durStep (true, t, none) u = (true, u, some (max 0 (u - t))) from by
      simp [durStep]]
    rw [durRun_valid]
    simp [maxConsecDiff, consecDiffs]

lemma durRun_reset (l : List Nat) (x : Nat) :
    (durRun (false, x, none) l).2.2 = maxConsecDiff l := by
  cases l with
  | nil => simp [durRun, maxConsecDiff, consecDiffs]
  | cons t l =>
    show (durRun (durStep (false, x, none) t) l).2.2 = _
    rw [show durStep (false, x, none) t = (true, t, none) from by simp [durStep]]
    exact durRun_valid_none t l

end RocFec

namespace RocFec

/-- C1: from a block boundary, feeding one block of `next_sblen` source
packets of one positive payload size through `write()` (with all
collaborators succeeding), the downstream writer observes exactly the
`next_sblen` stamped source packets in submission order followed by the
block's repair packets in increasing repair-index order; every call
succeeds; the repair packets are exactly `next_rblen` many, carry
consecutive repair indices `0, 1, ...` and all share the block's `sbn`,
`sblen` and `rblen`; and afterwards the writer sits at the start of the
next block (`sbn` advanced by one), so no packet of block N+1 is written
before block N's repair packets. -/
theorem write_block_downstream_ordering (w : Writer) (pp : PacketIn)
    (rest : List PacketIn)
    (halive : w.alive = true) (h0 : w.cur_packet = 0)
    (_hs : 0 < w.next_sblen) (_hr : 0 < w.next_rblen)
    (hlen : (pp :: rest).length = w.next_sblen)
    (hp : 0 < pp.payload_size)
    (hpay : ∀ q ∈ rest, q.payload_size = pp.payload_size) :
    ((writeMany okEnv w (pp :: rest)).1.filter isDownstreamWrite
        = srcWrites (begin_block_ w pp) (pp :: rest)
            ++ (repair_packets (begin_block_ w pp)).map Event.writeRepair) ∧
    (writeMany okEnv w (pp :: rest)).2.2
        = List.replicate w.next_sblen Status.ok ∧
    (repair_packets (begin_block_ w pp)).length = w.next_rblen ∧
    (repair_packets (begin_block_ w pp)).map Packet.blockIndex
        = List.range w.next_rblen ∧
    (∀ q ∈ repair_packets (begin_block_ w pp),
        q.sbn = w.cur_sbn ∧ q.sblen = w.next_sblen ∧ q.rblen = w.next_rblen) ∧
    (writeMany okEnv w (pp :: rest)).2.1.cur_sbn = w.cur_sbn + 1 ∧
    (writeMany okEnv w (pp :: rest)).2.1.cur_packet = 0 := by
  obtain ⟨-, hf2, -, -, hf5, -, -⟩ := blockFinal_begin_fields w pp
  rw [block_run w pp rest halive h0 hlen hp hpay]
  dsimp only
  refine ⟨?_, rfl, ?_, ?_, ?_, hf5, hf2⟩
  · rw [List.filter_append, filter_srcTrace, filter_repairTraceOk]
  · simp [repair_packets, begin_block_]
  · simp [repair_packets, make_repair_packet_, List.map_map, Function.comp_def,
          begin_block_]
  · intro q hq
    simp [repair_packets, make_repair_packet_] at hq
    rcases hq with ⟨i, -, rfl⟩
    exact ⟨rfl, rfl, rfl⟩

theorem write_block_downstream_ordering_witness :
    ((writeMany okEnv (mkWriter 2 2 4 4) [pktA, pktB]).1.filter isDownstreamWrite
        = srcWrites (begin_block_ (mkWriter 2 2 4 4) pktA) [pktA, pktB]
            ++ (repair_packets
                  (begin_block_ (mkWriter 2 2 4 4) pktA)).map Event.writeRepair) ∧
    (writeMany okEnv (mkWriter 2 2 4 4) [pktA, pktB]).2.2
        = List.replicate (mkWriter 2 2 4 4).next_sblen Status.ok ∧
    (repair_packets (begin_block_ (mkWriter 2 2 4 4) pktA)).length
        = (mkWriter 2 2 4 4).next_rblen ∧
    (repair_packets (begin_block_ (mkWriter 2 2 4 4) pktA)).map Packet.blockIndex
        = List.range (mkWriter 2 2 4 4).next_rblen ∧
    (∀ q ∈ repair_packets (begin_block_ (mkWriter 2 2 4 4) pktA),
        q.sbn = (mkWriter 2 2 4 4).cur_sbn ∧
        q.sblen = (mkWriter 2 2 4 4).next_sblen ∧
        q.rblen = (mkWriter 2 2 4 4).next_rblen) ∧
    (writeMany okEnv (mkWriter 2 2 4 4) [pktA, pktB]).2.1.cur_sbn
        = (mkWriter 2 2 4 4).cur_sbn + 1 ∧
    (writeMany okEnv (mkWriter 2 2 4 4) [pktA, pktB]).2.1.cur_packet = 0 :=
  write_block_downstream_ordering (mkWriter 2 2 4 4) pktA [pktB]
    (by decide) (by decide) (by decide) (by decide) (by decide) (by decide)
    (by intro q hq; simp at hq; rw [hq]; rfl)

/-- C6: across a writer run of any number of complete blocks, the
repair-stream sequence numbers stamped on the repair packets written
downstream (drawn from the `cur_block_repair_sn_` counter, separate from
the source stream) are strictly increasing over the whole trace, never
resetting at block boundaries. -/
theorem repair_sn_strictly_increasing (w : Writer) (blocks : List (List PacketIn))
    (halive : w.alive = true) (h0 : w.cur_packet = 0) (hns : 0 < w.next_sblen)
    (hgood : ∀ b ∈ blocks, goodBlock w.next_sblen b) :
    List.Pairwise (· < ·) (repairSns (runBlocks okEnv w blocks).1) := by
  obtain ⟨-, -, -, -, -, -, -, h8, -⟩ := runBlocks_spec blocks w halive h0 hns hgood
  rw [h8]
  exact List.pairwise_lt_range' _ _

theorem repair_sn_strictly_increasing_witness :
    List.Pairwise (· < ·)
      (repairSns (runBlocks okEnv (mkWriter 1 2 4 4) [[pktA], [pktB]]).1) :=
  repair_sn_strictly_increasing (mkWriter 1 2 4 4) [[pktA], [pktB]]
    (by decide) (by decide) (by decide)
    (by
      intro b hb
      simp at hb
      rcases hb with rfl | rfl
      · exact ⟨rfl, 5, by decide, by intro q hq; simp at hq; rw [hq]; rfl⟩
      · exact ⟨rfl, 5, by decide, by intro q hq; simp at hq; rw [hq]; rfl⟩)

/-- C7: after N consecutive complete blocks (each receiving its full
complement of source packets and finishing repair synthesis successfully,
every call returning success), the block sequence number has advanced by
exactly N. -/
theorem sbn_advances_per_block (w : Writer) (blocks : List (List PacketIn))
    (halive : w.alive = true) (h0 : w.cur_packet = 0) (hns : 0 < w.next_sblen)
    (hgood : ∀ b ∈ blocks, goodBlock w.next_sblen b) :
    (runBlocks okEnv w blocks).2.1.cur_sbn = w.cur_sbn + blocks.length ∧
    (runBlocks okEnv w blocks).2.2
      = List.replicate (blocks.length * w.next_sblen) Status.ok := by
  obtain ⟨-, -, -, -, h5, -, -, -, h9⟩ := runBlocks_spec blocks w halive h0 hns hgood
  exact ⟨h5, h9⟩

theorem sbn_advances_per_block_witness :
    (runBlocks okEnv (mkWriter 1 1 4 4) [[pktA], [pktB], [pktC]]).2.1.cur_sbn
      = (mkWriter 1 1 4 4).cur_sbn + ([[pktA], [pktB], [pktC]] : List (List PacketIn)).length ∧
    (runBlocks okEnv (mkWriter 1 1 4 4) [[pktA], [pktB], [pktC]]).2.2
      = List.replicate
          (([[pktA], [pktB], [pktC]] : List (List PacketIn)).length
            * (mkWriter 1 1 4 4).next_sblen) Status.ok :=
  sbn_advances_per_block (mkWriter 1 1 4 4) [[pktA], [pktB], [pktC]]
    (by decide) (by decide) (by decide)
    (by
      intro b hb
      simp at hb
      rcases hb with rfl | rfl | rfl
      · exact ⟨rfl, 5, by decide, by intro q hq; simp at hq; rw [hq]; rfl⟩
      · exact ⟨rfl, 5, by decide, by intro q hq; simp at hq; rw [hq]; rfl⟩
      · exact ⟨rfl, 5, by decide, by intro q hq; simp at hq; rw [hq]; rfl⟩)

/-- C9: starting from a baseline-reset state (no previous-block timestamp,
duration undefined), after running any number of complete blocks the
tracked maximum block duration equals the maximum over completed blocks of
the difference between consecutive blocks' first-packet timestamps —
undefined until two blocks have completed, since the very first block has
no predecessor — and a (valid) `resize()` call resets it to undefined
immediately. -/
theorem max_block_duration_tracking (w : Writer) (blocks : List (List PacketIn))
    (a b : Nat)
    (halive : w.alive = true) (h0 : w.cur_packet = 0) (hns : 0 < w.next_sblen)
    (hgood : ∀ b2 ∈ blocks, goodBlock w.next_sblen b2)
    (hbase : w.prev_block_ts_valid = false)
    (hdur : w.block_max_duration = none)
    (hab : sizesValid w a b) :
    max_block_duration (runBlocks okEnv w blocks).2.1
      = maxConsecDiff (blocks.map firstTs) ∧
    max_block_duration (resize w a b).1 = none := by
  constructor
  · obtain ⟨-, -, -, -, -, -, h7, -, -⟩ := runBlocks_spec blocks w halive h0 hns hgood
    rw [hbase, hdur] at h7
    have h72 := congrArg (fun z => z.2.2) h7
    dsimp only at h72
    rw [max_block_duration, h72, durRun_reset]
  · simp [resize, hab, max_block_duration]

theorem max_block_duration_tracking_witness :
    max_block_duration
        (runBlocks okEnv (mkWriter 1 1 4 4) [[pktA], [pktB], [pktC]]).2.1
      = maxConsecDiff (([[pktA], [pktB], [pktC]] : List (List PacketIn)).map firstTs) ∧
    max_block_duration (resize (mkWriter 1 1 4 4) 2 2).1 = none :=
  max_block_duration_tracking (mkWriter 1 1 4 4) [[pktA], [pktB], [pktC]] 2 2
    (by decide) (by decide) (by decide)
    (by
      intro b hb
      simp at hb
      rcases hb with rfl | rfl | rfl
      · exact ⟨rfl, 5, by decide, by intro q hq; simp at hq; rw [hq]; rfl⟩
      · exact ⟨rfl, 5, by decide, by intro q hq; simp at hq; rw [hq]; rfl⟩
      · exact ⟨rfl, 5, by decide, by intro q hq; simp at hq; rw [hq]; rfl⟩)
    (by decide) (by decide) (by decide)

end RocFec
